import Mathlib

/-!
Verification development for the income classification and aggregation
engine of the automatic-finance-api repository (Go).  The Go source is
shallowly embedded: shopspring decimal values are modelled as exact
rationals (the source's Div rounds to 16 decimal places; no statement
below depends on that rounding), Go maps keyed by the four income-source
names are modelled as a structure with one optional field per key, Go map
iteration is determinised to list order (every statement proved below is
order-independent), and a Go panic (decimal division by zero, index out
of range) is modelled as the value none of an Option-valued function.
String handling mirrors the Go code on the ASCII fragment through
kernel-computable list-based helpers: strings.TrimSpace is goTrim,
strings.ToLower is goLower, strings.Split is goSplit, strings.EqualFold
is comparison of lowercasings, and len of a Go string is utf8ByteSize.
-/

namespace Income

/-! ## String helpers (strings package) -/

/-- ASCII whitespace; the inputs handled by the engine contain no
exotic Unicode space characters, over which Go trims more. -/
def isSpaceChar (c : Char) : Bool :=
  c = ' ' ∨ c = '\t' ∨ c = '\n' ∨ c = '\r'

def trimChars (l : List Char) : List Char :=
  ((l.dropWhile isSpaceChar).reverse.dropWhile isSpaceChar).reverse

/-- Model of strings.TrimSpace. -/
def goTrim (s : String) : String :=
  (trimChars s.toList).asString

/-- ASCII lowercasing of one character, the fragment of unicode.ToLower
the engine's inputs exercise. -/
def lowerChar (c : Char) : Char :=
  if 'A' ≤ c ∧ c ≤ 'Z' then Char.ofNat (c.toNat + 32) else c

/-- Model of strings.ToLower. -/
def goLower (s : String) : String :=
  (s.toList.map lowerChar).asString

/-- Splitting engine of strings.Split for a nonempty separator; the fuel
argument only bounds the recursion and is always sufficient. -/
def splitGo (sep : List Char) : ℕ → List Char → List Char → List (List Char)
  | 0, s, acc => [acc.reverse ++ s]
  | fuel + 1, s, acc =>
    match s with
    | [] => [acc.reverse]
    | c :: rest =>
      if sep.isPrefixOf (c :: rest) then
        acc.reverse :: splitGo sep fuel (List.drop sep.length (c :: rest)) []
      else
        splitGo sep fuel rest (c :: acc)

/-- Model of strings.Split with a nonempty separator, empty parts
kept. -/
def goSplit (s sep : String) : List String :=
  (splitGo sep.toList (s.toList.length + 1) s.toList []).map List.asString

/-- Model of strings.EqualFold: case-insensitive equality. -/
def eqFold (a b : String) : Bool :=
  goLower a == goLower b

/-- Model of strings.Contains: substring test. -/
def strContains (s sub : String) : Bool :=
  decide (sub.toList <:+: s.toList)

/-- Model of strings.ReplaceAll(s, ",", ""): drop every comma. -/
def removeCommas (s : String) : String :=
  (s.toList.filter (fun c => c ≠ ',')).asString

/-! ## Decimal arithmetic.  A shopspring decimal is modelled as an exact
rational.  The kernel cannot reduce the library operations on Rat, so the
embedding routes every arithmetic step through the following
mkRat-normalising operations, each provably equal to the library one. -/

def qadd (a b : ℚ) : ℚ := mkRat (a.num * b.den + b.num * a.den) (a.den * b.den)

def qsub (a b : ℚ) : ℚ := mkRat (a.num * b.den - b.num * a.den) (a.den * b.den)

def qmul (a b : ℚ) : ℚ := mkRat (a.num * b.num) (a.den * b.den)

/-- Exact division; every call site in the embedding guards the divisor
against zero, mirroring the period guards of the source (the single
unguarded source division is modelled through Option instead).  The
16-digit rounding of the library Div is immaterial to every statement
below and is not modelled. -/
def qdiv (a b : ℚ) : ℚ := Rat.divInt (a.num * b.den) (b.num * a.den)

/-- Power of ten with an integer exponent, for the scientific-notation
scale of a parsed decimal. -/
def qpow10 (e : ℤ) : ℚ :=
  if 0 ≤ e then (((10 : ℕ) ^ e.toNat : ℕ) : ℚ) else mkRat 1 ((10 : ℕ) ^ (-e).toNat)

theorem qadd_eq (a b : ℚ) : qadd a b = a + b := by
  unfold qadd
  rw [Rat.mkRat_eq_div]
  have ha : ((a.den : ℚ)) ≠ 0 := by exact_mod_cast a.den_nz
  have hb : ((b.den : ℚ)) ≠ 0 := by exact_mod_cast b.den_nz
  rw [eq_comm]
  conv_lhs => rw [← Rat.num_div_den a, ← Rat.num_div_den b]
  push_cast
  field_simp

theorem qsub_eq (a b : ℚ) : qsub a b = a - b := by
  unfold qsub
  rw [Rat.mkRat_eq_div]
  have ha : ((a.den : ℚ)) ≠ 0 := by exact_mod_cast a.den_nz
  have hb : ((b.den : ℚ)) ≠ 0 := by exact_mod_cast b.den_nz
  rw [eq_comm]
  conv_lhs => rw [← Rat.num_div_den a, ← Rat.num_div_den b]
  push_cast
  field_simp
  ring

theorem qmul_eq (a b : ℚ) : qmul a b = a * b := by
  unfold qmul
  rw [Rat.mkRat_eq_div]
  have ha : ((a.den : ℚ)) ≠ 0 := by exact_mod_cast a.den_nz
  have hb : ((b.den : ℚ)) ≠ 0 := by exact_mod_cast b.den_nz
  rw [eq_comm]
  conv_lhs => rw [← Rat.num_div_den a, ← Rat.num_div_den b]
  push_cast
  field_simp

theorem qdiv_eq (a b : ℚ) : qdiv a b = a / b := by
  unfold qdiv
  rw [Rat.divInt_eq_div]
  by_cases hb : b = 0
  · subst hb; simp
  · have hbn : ((b.num : ℚ)) ≠ 0 := by
      exact_mod_cast Rat.num_ne_zero.mpr hb
    have ha : ((a.den : ℚ)) ≠ 0 := by exact_mod_cast a.den_nz
    have hbd : ((b.den : ℚ)) ≠ 0 := by exact_mod_cast b.den_nz
    rw [eq_comm]
    conv_lhs => rw [← Rat.num_div_den a, ← Rat.num_div_den b]
    push_cast
    field_simp
    simp [mul_comm]

/-! ## Decimal parsing (shopspring/decimal NewFromString) -/

/-- Numeric value of a digit list, most significant first. -/
def digitsVal (l : List Char) : ℕ :=
  l.foldl (fun n c => 10 * n + (c.toNat - 48)) 0

/-- Parse a nonempty all-digit list. -/
def parseDigits (l : List Char) : Option ℕ :=
  if l ≠ [] ∧ l.all Char.isDigit then some (digitsVal l) else none

/-- Parse an optionally signed nonempty digit string, as big.Int SetString
and strconv.ParseInt accept in base 10. -/
def parseSignedInt : List Char → Option ℤ
  | '+' :: rest => (parseDigits rest).map (fun n => (n : ℤ))
  | '-' :: rest => (parseDigits rest).map (fun n => -(n : ℤ))
  | l => (parseDigits l).map (fun n => (n : ℤ))

/-- Split a character list at the first occurrence of one of two marker
characters, as strings.IndexAny does; the marker itself is dropped. -/
def splitAtFirstMark (m1 m2 : Char) : List Char → List Char × Option (List Char)
  | [] => ([], none)
  | c :: rest =>
    if c = m1 ∨ c = m2 then ([], some rest)
    else
      let p := splitAtFirstMark m1 m2 rest
      (c :: p.1, p.2)

/-- Model of decimal.NewFromString: optional scientific-notation exponent
after the first e or E, at most one decimal point, a digit string that may
carry a sign; a trailing decimal point or a second decimal point is an
error.  The resulting value is mantissa times ten to the exponent. -/
def decimalNewFromString (value : String) : Option ℚ :=
  let p := splitAtFirstMark 'e' 'E' value.toList
  let expOpt : Option ℤ := match p.2 with
    | none => some 0
    | some ec => parseSignedInt ec
  match expOpt with
  | none => none
  | some e1 =>
    let q := splitAtFirstMark '.' '.' p.1
    match q.2 with
    | none => (parseSignedInt q.1).map (fun d => qmul (d : ℚ) (qpow10 e1))
    | some fracPart =>
      if fracPart.contains '.' then none
      else if fracPart.isEmpty then none
      else (parseSignedInt (q.1 ++ fracPart)).map
        (fun d => qmul (d : ℚ) (qpow10 (e1 - fracPart.length)))

/-! ## Dates (time package, layout 02/01/2006 and January-2006) -/

/-- Calendar date; models the date part of a Go time.Time.  The zero
time.Time is January 1 of year 1. -/
structure GoDate where
  year : ℕ
  month : ℕ
  day : ℕ
deriving DecidableEq, Repr

/-- Zero value of time.Time: January 1, year 1. -/
def zeroGoDate : GoDate := ⟨1, 1, 1⟩

def isLeapYear (y : ℕ) : Bool :=
  decide (y % 4 = 0 ∧ (y % 100 ≠ 0 ∨ y % 400 = 0))

def daysInMonth (y m : ℕ) : ℕ :=
  if m = 2 then (if isLeapYear y then 29 else 28)
  else if m = 4 ∨ m = 6 ∨ m = 9 ∨ m = 11 then 30
  else 31

/-- Model of time.ParseInLocation with layout 02/01/2006: exactly two day
digits, two month digits and four year digits separated by slashes, and
the combination must be a real calendar date. -/
def parseDateDDMMYYYY (s : String) : Option GoDate :=
  match s.toList with
  | [d1, d2, '/', m1, m2, '/', y1, y2, y3, y4] =>
    if [d1, d2, m1, m2, y1, y2, y3, y4].all Char.isDigit then
      let dd := digitsVal [d1, d2]
      let mm := digitsVal [m1, m2]
      let yy := digitsVal [y1, y2, y3, y4]
      if 1 ≤ mm ∧ mm ≤ 12 ∧ 1 ≤ dd ∧ dd ≤ daysInMonth yy mm then
        some ⟨yy, mm, dd⟩
      else none
    else none
  | _ => none

/-- Model of time.Time.Before restricted to dates. -/
def beforeGoDate (a b : GoDate) : Bool :=
  decide (a.year < b.year ∨ (a.year = b.year ∧
    (a.month < b.month ∨ (a.month = b.month ∧ a.day < b.day))))

/-- Model of countMonth from the income service: zero when the end
precedes the start, otherwise the year difference times twelve plus the
month difference, converted to a decimal. -/
def countMonth (fromD toD : GoDate) : ℚ :=
  if beforeGoDate toD fromD then 0
  else ((((toD.year : ℤ) - fromD.year) * 12 + ((toD.month : ℤ) - fromD.month) : ℤ) : ℚ)

def monthName (m : ℕ) : String :=
  match m with
  | 1 => "January" | 2 => "February" | 3 => "March" | 4 => "April"
  | 5 => "May" | 6 => "June" | 7 => "July" | 8 => "August"
  | 9 => "September" | 10 => "October" | 11 => "November" | 12 => "December"
  | _ => ""

def monthFromName (s : String) : Option ℕ :=
  match s with
  | "January" => some 1 | "February" => some 2 | "March" => some 3
  | "April" => some 4 | "May" => some 5 | "June" => some 6
  | "July" => some 7 | "August" => some 8 | "September" => some 9
  | "October" => some 10 | "November" => some 11 | "December" => some 12
  | _ => none

/-- Four-digit zero-padded year, as the 2006 layout verb renders it. -/
def pad4 (y : ℕ) : String :=
  if y < 10 then "000" ++ toString y
  else if y < 100 then "00" ++ toString y
  else if y < 1000 then "0" ++ toString y
  else toString y

/-- Format a date with layout January-2006. -/
def formatMonthYear (d : GoDate) : String :=
  monthName d.month ++ "-" ++ pad4 d.year

/-- Model of getMonthWithYYYYMM: parse the 02/01/2006 cell and render the
month key in layout January-2006, empty string on parse failure. -/
def getMonthWithYYYYMM (s : String) : String :=
  match parseDateDDMMYYYY s with
  | none => ""
  | some d => formatMonthYear d

/-- Model of time.Parse with layout January-2006, used for sorting month
keys: full month name, a dash and a four-digit year. -/
def parseMonthLabel (s : String) : Option GoDate :=
  match goSplit s "-" with
  | [nm, ys] =>
    match monthFromName nm with
    | none => none
    | some m =>
      if ys.toList.length = 4 ∧ ys.toList.all Char.isDigit then
        some ⟨digitsVal ys.toList, m, 1⟩
      else none
  | _ => none

/-- Month sort key: a failed parse leaves the Go zero time, January of
year 1. -/
def monthSortKey (s : String) : ℕ :=
  match parseMonthLabel s with
  | none => 13
  | some d => d.year * 12 + d.month

/-- Chronological sort of month-keyed records, as the sort.Slice calls
over parsed January-2006 labels; the Go sort is unstable and unspecified
on ties, so any sorted rearrangement is a faithful determinisation. -/
def sortByMonthKey (key : α → String) (l : List α) : List α :=
  l.insertionSort (fun a b => monthSortKey (key a) ≤ monthSortKey (key b))

/-! ## Enumerations (type.go, the source and product types) -/

/-- Income source category. -/
inductive SourceKind where
  | unspecified
  | salary
  | allowance
  | commission
  | basicSalaryInterview
deriving DecidableEq, Repr

/-- Product code. -/
inductive Product where
  | unspecified
  | SA
  | SF
  | PL
deriving DecidableEq, Repr

/-- Calculation lifecycle status. -/
inductive AnalysisStatus where
  | unspecified
  | pending
  | completed
deriving DecidableEq, Repr

/-! ## Wordlists and the classifier (wordlist.go) -/

/-- Classification dictionary entry; the identity and audit columns play
no part in matching and are omitted. -/
structure Wordlist where
  Word : String
  Category : SourceKind
deriving DecidableEq, Repr

/-- Matching test for one wordlist entry against the already normalized
(trimmed, lowercased) memo, from the body of the loop in matchWordlists:
a trimmed word of at most three bytes must equal, case-insensitively, one
of the trimmed space-separated tokens of one of the trimmed pipe-separated
segments of the memo; a longer word matches as a lowercased substring. -/
def entryMatches (t : String) (w : Wordlist) : Bool :=
  let word := goTrim w.Word
  if word.utf8ByteSize ≤ 3 then
    (goSplit t "|").any (fun seg =>
      (goSplit (goTrim seg) " ").any (fun v => eqFold (goTrim v) (goLower word)))
  else
    strContains t (goLower word)

/-- Loop of matchWordlists over the ordered wordlist: first entry that
matches wins, and its category and trimmed word are returned. -/
def matchGo (t : String) : List Wordlist → Option (SourceKind × String)
  | [] => none
  | w :: rest =>
    if entryMatches t w then some (w.Category, goTrim w.Word)
    else matchGo t rest

/-- Model of matchWordlists: normalize the memo by trimming and
lowercasing, then try the entries in sequence order; none models the
(SourceUnSpecified, empty, false) result. -/
def matchWordlists (target : String) (wordlists : List Wordlist) :
    Option (SourceKind × String) :=
  matchGo (goLower (goTrim target)) wordlists

/-! ## Transactions, buckets and the stat map (part_008, part_009) -/

/-- Decoded statement transaction. -/
structure Transaction where
  Date : GoDate
  BillNumber : String
  Noted : String
  Amount : ℚ
deriving DecidableEq, Repr

/-- Per-source aggregation state, the Go statCal.  The two maps are
modelled as association lists whose order determinises Go map
iteration. -/
structure StatCal where
  Transactions : List (String × List Transaction) := []
  Monthly : List ℚ := []
  Total : ℚ := 0
  AverageMonth : List (String × ℚ) := []
deriving DecidableEq, Repr

/-- Aggregation state, the Go statMap.  The source writes and reads the
map only at the four fixed source-name keys, so it is modelled as one
optional field per key: the salary field is the binding at the key
SALARY, and so on. -/
structure StatMap where
  salary : Option StatCal := none
  allowance : Option StatCal := none
  commission : Option StatCal := none
  interview : Option StatCal := none
deriving DecidableEq, Repr

/-- Lookup in an association list, first binding wins. -/
def lookupAssoc (l : List (String × α)) (k : String) : Option α :=
  (l.find? (fun p => p.1 == k)).map (fun p => p.2)

/-- Model of appending one transaction to a map-of-lists entry: the
binding is extended in place, and a missing key is created. -/
def appendTxAssoc (l : List (String × List Transaction)) (k : String)
    (t : Transaction) : List (String × List Transaction) :=
  match l with
  | [] => [(k, [t])]
  | (k1, ts) :: rest =>
    if k1 == k then (k1, ts ++ [t]) :: rest
    else (k1, ts) :: appendTxAssoc rest k t

/-- Model of appending a list of transactions to a map-of-lists entry. -/
def appendTxsAssoc (l : List (String × List Transaction)) (k : String)
    (ts : List Transaction) : List (String × List Transaction) :=
  match l with
  | [] => [(k, ts)]
  | (k1, ts1) :: rest =>
    if k1 == k then (k1, ts1 ++ ts) :: rest
    else (k1, ts1) :: appendTxsAssoc rest k ts

/-- Model of overwriting a map binding. -/
def setAssoc (l : List (String × ℚ)) (k : String) (v : ℚ) :
    List (String × ℚ) :=
  match l with
  | [] => [(k, v)]
  | (k1, v1) :: rest =>
    if k1 == k then (k1, v) :: rest
    else (k1, v1) :: setAssoc rest k v

/-! ## Breakdown records (part_009) -/

structure Breakdown where
  MonthlyAverage : ℚ := 0
  Total : ℚ := 0
deriving DecidableEq, Repr

/-- Income source summary, the Go Source struct. -/
structure Source where
  BasicSalary : Breakdown := {}
  Allowance : Breakdown := {}
  Commission : Breakdown := {}
  Other : Breakdown := {}
deriving DecidableEq, Repr

structure MonthlySalary where
  Month : String
  TimesReceived : ℚ
  Transactions : List Transaction
  Total : ℚ
deriving DecidableEq, Repr

structure SalaryBreakdown where
  MonthlySalaries : List MonthlySalary := []
  BasicSalary : ℚ := 0
  Total : ℚ := 0
deriving DecidableEq, Repr

structure Allowance where
  Title : String
  Months : ℚ
  MonthlyAverage : ℚ
  Transactions : List Transaction
  Total : ℚ
deriving DecidableEq, Repr

structure AllowanceBreakdown where
  Allowances : List Allowance := []
  Total : ℚ := 0
deriving DecidableEq, Repr

structure Commission where
  Month : String
  Transactions : List Transaction
  Total : ℚ
deriving DecidableEq, Repr

structure CommissionBreakdown where
  Commissions : List Commission := []
  MonthlyAverage : ℚ := 0
  Total : ℚ := 0
deriving DecidableEq, Repr

/-! ## Helper minima and sums (part_008) -/

def findMinAmount (amounts : List ℚ) : ℚ :=
  match amounts with
  | [] => 0
  | a :: _ => amounts.foldl (fun acc x => if x < acc then x else acc) a

def findMinFromTransactions (ts : List Transaction) : ℚ :=
  match ts with
  | [] => 0
  | t :: _ => ts.foldl (fun acc x => if x.Amount < acc then x.Amount else acc) t.Amount

def findMinAmountFromMonthlySalaries (ms : List MonthlySalary) : ℚ :=
  match ms with
  | [] => 0
  | m :: _ => ms.foldl (fun acc x => if x.Total < acc then x.Total else acc) m.Total

def sumAmounts (amounts : List ℚ) : ℚ :=
  match amounts with
  | [] => 0
  | _ => amounts.foldl (fun s a => qadd s a) 0

def sumTransactions (ts : List Transaction) : ℚ :=
  match ts with
  | [] => 0
  | _ => ts.foldl (fun s t => qadd s t.Amount) 0

/-! ## Formula engine (statMap methods, part_008).  Division is exact
rational division; a decimal division whose divisor can be zero is
modelled through Option, none being the Go panic. -/

/-- Model of statMap.totalIncome. -/
def totalIncome (s : StatMap) (prod : Product) : ℚ :=
  match prod with
  | .SA =>
    match s.salary with
    | none => 0
    | some raw => raw.Transactions.foldl (fun total p => qadd total (findMinFromTransactions p.2)) 0
  | .PL | .SF =>
    match s.salary with
    | none => 0
    | some raw => raw.Total
  | _ => 0

/-- Model of statMap.basicSalaryFromInterview. -/
def basicSalaryFromInterview (s : StatMap) : ℚ :=
  match s.interview with
  | none => 0
  | some raw => raw.Total

/-- Model of statMap.toListMonthlySalaries. -/
def toListMonthlySalaries (s : StatMap) : SalaryBreakdown :=
  match s.salary with
  | none => {}
  | some raw =>
    let monthlySalaries := (raw.Transactions.filter (fun p => !p.2.isEmpty)).map
      (fun p => { Month := p.1, TimesReceived := (p.2.length : ℚ),
                  Total := sumTransactions p.2, Transactions := p.2 })
    { MonthlySalaries := sortByMonthKey (fun m => m.Month) monthlySalaries,
      BasicSalary := findMinAmount raw.Monthly,
      Total := raw.Total }

/-- Model of statMap.basicSalary. -/
def basicSalary (s : StatMap) (prod : Product) (period : ℚ) : ℚ :=
  match prod with
  | .SA =>
    if period = 0 then 0
    else
      let total := totalIncome s .SA
      if total = 0 then 0 else qdiv total period
  | .PL | .SF =>
    findMinAmountFromMonthlySalaries (toListMonthlySalaries s).MonthlySalaries
  | _ => 0

/-- Model of statMap.totalBasicSalary. -/
def totalBasicSalary (s : StatMap) (prod : Product) (period : ℚ) : ℚ :=
  if period = 0 then 0
  else
    match prod with
    | .SA =>
      let total := totalIncome s .SA
      if total = 0 then 0 else qdiv total period
    | .PL | .SF => qmul (basicSalary s prod period) period
    | _ => 0

/-- Model of statMap.totalOtherIncome; it always computes against the PL
product rule. -/
def totalOtherIncome (s : StatMap) (period : ℚ) : ℚ :=
  if period = 0 then 0
  else
    let o := qsub (totalIncome s .PL) (totalBasicSalary s .PL period)
    if o < 0 then 0 else o

/-- Model of statMap.averageOtherIncome. -/
def averageOtherIncome (s : StatMap) (period : ℚ) : ℚ :=
  if period = 0 then 0
  else
    let total := totalOtherIncome s period
    if total = 0 then 0 else qdiv total period

/-- Model of statMap.toListAllowances, the loop: the months divisor
starts at twelve, is replaced by the AverageMonth binding when one
exists and otherwise keeps its previous value, and the bucket total is
divided by it with no zero guard — a zero divisor is the Go panic,
modelled as none. -/
def toListAllowancesGo (am : List (String × ℚ)) :
    List (String × List Transaction) → ℚ → List Allowance → ℚ →
    Option (List Allowance × ℚ)
  | [], _, acc, total => some (acc.reverse, total)
  | (title, tx) :: rest, months, acc, total =>
    if tx.isEmpty then toListAllowancesGo am rest months acc total
    else
      let months1 := match lookupAssoc am title with
        | some m => m
        | none => months
      let amount := sumTransactions tx
      if months1 = 0 then none
      else
        toListAllowancesGo am rest months1
          ({ Title := title, Months := months1, MonthlyAverage := qdiv amount months1,
             Total := amount, Transactions := tx } :: acc)
          (qadd total (qdiv amount months1))

/-- Model of statMap.toListAllowances. -/
def toListAllowances (s : StatMap) : Option AllowanceBreakdown :=
  match s.allowance with
  | none => some {}
  | some raw =>
    (toListAllowancesGo raw.AverageMonth raw.Transactions 12 [] 0).map
      (fun p => { Allowances := p.1, Total := p.2 })

/-- Model of statMap.toListCommissions; the division by the period is
guarded by the period-zero test. -/
def toListCommissions (s : StatMap) (period : ℚ) : CommissionBreakdown :=
  match s.commission with
  | none => {}
  | some raw =>
    let commissions := (raw.Transactions.filter (fun p => !p.2.isEmpty)).map
      (fun p => { Month := p.1, Transactions := p.2, Total := sumTransactions p.2 })
    let monthlyAverage := if period = 0 then 0 else qdiv raw.Total period
    { Commissions := sortByMonthKey (fun c => c.Month) commissions,
      Total := raw.Total,
      MonthlyAverage := monthlyAverage }

/-- Model of statMap.averageCommission. -/
def averageCommission (s : StatMap) (period : ℚ) : ℚ :=
  (toListCommissions s period).MonthlyAverage

/-- Model of statMap.averageAllowance; the period argument is unused in
the source as well. -/
def averageAllowance (s : StatMap) (_period : ℚ) : Option ℚ :=
  (toListAllowances s).map (fun b => b.Total)

/-- Model of statMap.averageOtherIncomeIn80Percent. -/
def averageOtherIncomeIn80Percent (s : StatMap) (period : ℚ) : Option ℚ :=
  (averageAllowance s period).map (fun aw =>
    qmul (qadd (qadd (averageOtherIncome s period) (averageCommission s period)) aw)
      (mkRat 4 5))

/-- Model of statMap.averageMonthlyIncome. -/
def averageMonthlyIncome (s : StatMap) (prod : Product) (period : ℚ) : Option ℚ :=
  match prod with
  | .SA =>
    let basic := basicSalary s .SA period
    let interview := basicSalaryFromInterview s
    (averageAllowance s period).map (fun aw =>
      if 0 < interview ∧ interview < basic then
        qadd (qadd interview aw) (averageCommission s period)
      else
        qadd (qadd basic aw) (averageCommission s period))
  | .PL | .SF =>
    (averageOtherIncomeIn80Percent s period).map (fun o80 =>
      let basic := basicSalary s prod period
      let interview := basicSalaryFromInterview s
      if 0 < interview ∧ interview < basic then qadd interview o80
      else qadd basic o80)
  | _ => some 0

/-- Model of statMap.netIncomeMonthly. -/
def netIncomeMonthly (s : StatMap) (prod : Product) (exchangeRate period : ℚ) :
    Option ℚ :=
  if period = 0 then some 0
  else
    (averageMonthlyIncome s prod period).map (fun monthlyIncome =>
      if monthlyIncome = 0 then 0 else qmul monthlyIncome exchangeRate)

/-- Model of newSourceIncome. -/
def newSourceIncome (m : StatMap) (prod : Product) (period : ℚ) : Option Source :=
  (toListAllowances m).map (fun awb =>
    { Allowance := { Total := awb.Total, MonthlyAverage := awb.Total },
      Commission := { Total := (toListCommissions m period).Total,
                      MonthlyAverage := averageCommission m period },
      BasicSalary := { Total := totalBasicSalary m prod period,
                       MonthlyAverage := basicSalary m prod period },
      Other := {} })

/-! ## Calculation aggregate (part_009).  Wall-clock instants are an
abstract counter passed in by the caller. -/

structure Account where
  Number : String := ""
  DisplayName : String := ""
  Currency : String := ""
deriving DecidableEq, Repr

structure Calculation where
  ID : ℤ := 0
  StatementFileName : String := ""
  Number : String := ""
  Product : Income.Product := .unspecified
  Account : Income.Account := {}
  ExchangeRate : ℚ := 0
  MonthlyAverageIncome : ℚ := 0
  MonthlyNetIncome : ℚ := 0
  TotalOtherIncome : ℚ := 0
  TotalBasicSalary : ℚ := 0
  TotalIncome : ℚ := 0
  PeriodInMonth : ℚ := 0
  StartedAt : GoDate := zeroGoDate
  EndedAt : GoDate := zeroGoDate
  Status : AnalysisStatus := .unspecified
  CreatedBy : String := ""
  UpdatedBy : String := ""
  CreatedAt : ℕ := 0
  UpdatedAt : ℕ := 0
  SalaryBreakdown : Income.SalaryBreakdown := {}
  AllowanceBreakdown : Income.AllowanceBreakdown := {}
  CommissionBreakdown : Income.CommissionBreakdown := {}
  Source : Income.Source := {}
deriving DecidableEq, Repr

/-- Model of newCalculation. -/
def newCalculation (by_ number statementFileName : String)
    (prod : Product) (now : ℕ) : Calculation :=
  { Number := number,
    StatementFileName := statementFileName,
    Product := prod,
    ExchangeRate := 1,
    MonthlyAverageIncome := 0,
    MonthlyNetIncome := 0,
    TotalOtherIncome := 0,
    TotalBasicSalary := 0,
    TotalIncome := 0,
    Status := .pending,
    CreatedBy := by_,
    CreatedAt := now,
    UpdatedBy := by_,
    UpdatedAt := now }

/-- Model of Calculation.Complete. -/
def complete (c : Calculation) (by_ : String) (now : ℕ) : Calculation :=
  { c with Status := .completed, UpdatedAt := now, UpdatedBy := by_ }

/-- Model of Calculation.IsCompleted. -/
def isCompleted (c : Calculation) : Bool :=
  c.Status == .completed

/-- Model of Calculation.populate; none is a decimal division-by-zero
panic escaping from the allowance aggregation. -/
def populate (c : Calculation) (prod : Product) (period exchangeRate : ℚ)
    (incomes : StatMap) : Option Calculation := do
  let src ← newSourceIncome incomes prod period
  let awb ← toListAllowances incomes
  let mai ← averageMonthlyIncome incomes prod period
  let net ← netIncomeMonthly incomes prod exchangeRate period
  some { c with
    Source := src,
    AllowanceBreakdown := awb,
    CommissionBreakdown := toListCommissions incomes period,
    SalaryBreakdown := toListMonthlySalaries incomes,
    PeriodInMonth := period,
    TotalBasicSalary := totalBasicSalary incomes prod period,
    TotalIncome := totalIncome incomes prod,
    TotalOtherIncome := totalOtherIncome incomes period,
    MonthlyAverageIncome := mai,
    MonthlyNetIncome := net,
    ExchangeRate := exchangeRate }

/-- Caller-edited breakdown replacement request. -/
structure RecalculateReq where
  Number : String := ""
  BasicSalaryFromInterview : ℚ := 0
  MonthlySalaries : List MonthlySalary := []
  Allowances : List Income.Allowance := []
  Commissions : List Income.Commission := []
deriving DecidableEq, Repr

/-- Allowance pass of Calculation.toStateMap: transactions merged by
title, the bucket totals collected in order, and the months divisor
recorded per title; allowances without transactions are skipped. -/
def toStateMapAllowances (allowances : List Income.Allowance) :
    List (String × List Transaction) × List ℚ × List (String × ℚ) :=
  allowances.foldl
    (fun acc a =>
      if a.Transactions.isEmpty then acc
      else
        (appendTxsAssoc acc.1 a.Title a.Transactions,
         acc.2.1 ++ [a.Total],
         setAssoc acc.2.2 a.Title a.Months))
    ([], [], [])

/-- Commission pass of Calculation.toStateMap. -/
def toStateMapCommissions (commissions : List Income.Commission) :
    List (String × List Transaction) × List ℚ :=
  commissions.foldl
    (fun acc c =>
      if c.Transactions.isEmpty then acc
      else
        (appendTxsAssoc acc.1 c.Month c.Transactions,
         acc.2 ++ [c.Total]))
    ([], [])

/-- Salary pass of Calculation.toStateMap; the monthly list collects the
individual transaction amounts. -/
def toStateMapSalaries (salaries : List MonthlySalary) :
    List (String × List Transaction) × List ℚ :=
  salaries.foldl
    (fun acc s =>
      if s.Transactions.isEmpty then acc
      else
        (appendTxsAssoc acc.1 s.Month s.Transactions,
         acc.2 ++ s.Transactions.map (fun t => t.Amount)))
    ([], [])

/-- Model of Calculation.toStateMap.  The interview bucket is never
populated: the source writes only the allowance, commission and salary
keys. -/
def toStateMap (c : Calculation) : StatMap :=
  let aw := toStateMapAllowances c.AllowanceBreakdown.Allowances
  let com := toStateMapCommissions c.CommissionBreakdown.Commissions
  let sal := toStateMapSalaries c.SalaryBreakdown.MonthlySalaries
  { allowance := some { Transactions := aw.1, Total := sumAmounts aw.2.1,
                        Monthly := aw.2.1, AverageMonth := aw.2.2 },
    commission := some { Transactions := com.1, Monthly := com.2,
                         Total := sumAmounts com.2 },
    salary := some { Transactions := sal.1, Monthly := sal.2,
                     Total := sumAmounts sal.2 },
    interview := none }

/-- Model of Calculation.ReCalculate: replace the three breakdowns from
the request (the declared interview salary of the request is not read),
rebuild the state map and repopulate; none is the division-by-zero
panic. -/
def reCalculate (c : Calculation) (by_ : String) (now : ℕ)
    (req : RecalculateReq) : Option Calculation :=
  let c1 := { c with
    SalaryBreakdown := { MonthlySalaries := req.MonthlySalaries },
    AllowanceBreakdown := { Allowances := req.Allowances },
    CommissionBreakdown := { Commissions := req.Commissions } }
  let mapCal := toStateMap c1
  let c2 := { c1 with UpdatedAt := now, UpdatedBy := by_ }
  populate c2 c.Product c.PeriodInMonth c.ExchangeRate mapCal

/-! ## Service layer (part_008).  The database is a key-value store from
calculation number to calculation; the upsert of saveCalculationIncome is
a store update at the calculation's number. -/

def Store := String → Option Calculation

def updateStore (store : Store) (k : String) (c : Calculation) : Store :=
  fun n => if n = k then some c else store n

/-- Model of getCalculation: an empty number is not found, otherwise the
store is consulted by number. -/
def getCalculation (store : Store) (number : String) : Option Calculation :=
  if number = "" then none else store number

inductive SvcError where
  | permissionDenied
  | alreadyCompleted
  | alreadyExists
  | invalidArgument
  | invalidStatement
deriving DecidableEq, Repr

/-- Model of Service.ReCalculateIncome: fetch by number, refuse a
completed calculation before any mutation, otherwise recalculate and
save; the outer none is a panic escaping the recalculation. -/
def reCalculateIncomeSvc (store : Store) (by_ : String) (now : ℕ)
    (req : RecalculateReq) : Option (Except SvcError Calculation × Store) :=
  match getCalculation store req.Number with
  | none => some (.error .permissionDenied, store)
  | some c =>
    if isCompleted c then some (.error .alreadyCompleted, store)
    else
      match reCalculate c by_ now req with
      | none => none
      | some c2 => some (.ok c2, updateStore store c2.Number c2)

/-- Model of Service.CompleteCalculation: an already completed
calculation is returned unchanged without saving. -/
def completeCalculationSvc (store : Store) (by_ : String) (now : ℕ)
    (number : String) : Except SvcError Calculation × Store :=
  match getCalculation store number with
  | none => (.error .permissionDenied, store)
  | some c =>
    if isCompleted c then (.ok c, store)
    else
      let c2 := complete c by_ now
      (.ok c2, updateStore store c2.Number c2)

/-! ## Statement decoding and the compute pipeline (part_008) -/

/-- Decodable statement file: the four header cells A7, A9, A10, A11 and
the data rows of the sheet. -/
structure StatementFileModel where
  Name : String := ""
  a7 : String := ""
  a9 : String := ""
  a10 : String := ""
  a11 : String := ""
  rows : List (List String) := []
deriving DecidableEq, Repr

/-- Model of extractAccount: trim, split on the labelled-cell separator,
require exactly two parts and return the trimmed payload. -/
def extractAccount (raw : String) : String :=
  let r := goSplit (goTrim raw) " : "
  if r.length ≠ 2 then "" else goTrim (r.getD 1 "")

/-- Model of extractPeriod: split the payload on the Lao range separator
and parse both endpoint dates; a failed first parse returns two zero
times, a failed second parse returns the first date and a zero time, and
a missing second element is an index-out-of-range panic (none) reached
only when the first parse succeeded. -/
def extractPeriod (raw : String) : Option (GoDate × GoDate) :=
  let r := goSplit (goTrim raw) " : "
  if r.length ≠ 2 then some (zeroGoDate, zeroGoDate)
  else
    let period := goSplit (r.getD 1 "") " ຫາ "
    match parseDateDDMMYYYY (period.getD 0 "") with
    | none => some (zeroGoDate, zeroGoDate)
    | some fromD =>
      if period.length < 2 then none
      else
        match parseDateDDMMYYYY (period.getD 1 "") with
        | none => some (fromD, zeroGoDate)
        | some toD => some (fromD, toD)

/-- Salary case of the aggregation switch. -/
def addSalaryTx (m : StatMap) (month : String) (amount : ℚ)
    (t : Transaction) : StatMap :=
  let raw := m.salary.getD {}
  { m with salary := some { raw with
      Monthly := raw.Monthly ++ [amount],
      Total := qadd raw.Total amount,
      Transactions := appendTxAssoc raw.Transactions month t } }

/-- Commission case of the aggregation switch. -/
def addCommissionTx (m : StatMap) (month : String) (amount : ℚ)
    (t : Transaction) : StatMap :=
  let raw := m.commission.getD {}
  { m with commission := some { raw with
      Monthly := raw.Monthly ++ [amount],
      Total := qadd raw.Total amount,
      Transactions := appendTxAssoc raw.Transactions month t } }

/-- Allowance case of the aggregation switch: keyed by the matched title
and the default twelve-month divisor is recorded for the title. -/
def addAllowanceTx (m : StatMap) (title : String) (amount : ℚ)
    (t : Transaction) : StatMap :=
  let raw := m.allowance.getD {}
  { m with allowance := some { raw with
      Monthly := raw.Monthly ++ [amount],
      Total := qadd raw.Total amount,
      AverageMonth := setAssoc raw.AverageMonth title 12,
      Transactions := appendTxAssoc raw.Transactions title t } }

/-- Row handling of the calculateIncomeFromStatementFile loop: skip short
rows, unparsable or non-positive amounts, empty memos, unparsable dates
and unmatched memos, then append the transaction to the bucket of its
category. -/
def processRow (wordlists : List Wordlist) (m : StatMap) (row : List String) :
    StatMap :=
  if row.length ≤ 4 then m
  else
    match decimalNewFromString (removeCommas (row.getD 4 "")) with
    | none => m
    | some incomeAmount =>
      if ¬ 0 < incomeAmount then m
      else if (row.getD 2 "").utf8ByteSize = 0 then m
      else
        match parseDateDDMMYYYY (row.getD 0 "") with
        | none => m
        | some date =>
          let month := getMonthWithYYYYMM (row.getD 0 "")
          match matchWordlists (row.getD 2 "") wordlists with
          | none => m
          | some cat =>
            let t : Transaction := { Amount := incomeAmount, Date := date,
                                     BillNumber := row.getD 1 "",
                                     Noted := row.getD 2 "" }
            match cat.1 with
            | .salary => addSalaryTx m month incomeAmount t
            | .commission => addCommissionTx m month incomeAmount t
            | .allowance => addAllowanceTx m cat.2 incomeAmount t
            | _ => m

structure CalculateReq where
  Number : String := ""
  Product : Income.Product := .unspecified
  StatementFileName : String := ""
deriving DecidableEq, Repr

/-- Statement-level failure inside the compute pipeline. -/
inductive StatementError where
  | invalidHeader
  | currencyUnknown
deriving DecidableEq, Repr

/-- Model of Service.calculateIncomeFromStatementFile: read the period
and account header cells, reject a missing account number or display
name or a currency whose trimmed length is not three bytes, look the
currency up, aggregate every data row in one pass and populate the new
calculation.  There is no check that any classifiable transaction was
found. -/
def calculateIncomeFromStatementFile (username : String) (req : CalculateReq)
    (wordlists : List Wordlist) (statement : StatementFileModel)
    (currencies : String → Option ℚ) (now : ℕ) :
    Option (Except StatementError Calculation) :=
  match extractPeriod statement.a7 with
  | none => none
  | some fromTo =>
    if (extractAccount statement.a9).utf8ByteSize = 0 ∨
        (extractAccount statement.a10).utf8ByteSize = 0 ∨
        (goTrim (extractAccount statement.a11)).utf8ByteSize ≠ 3 then
      some (.error .invalidHeader)
    else
      match currencies (extractAccount statement.a11) with
      | none => some (.error .currencyUnknown)
      | some exchangeRate =>
        match populate
            { newCalculation username req.Number statement.Name req.Product now with
              StartedAt := fromTo.1,
              EndedAt := fromTo.2,
              Account := { Number := extractAccount statement.a9,
                           DisplayName := extractAccount statement.a10,
                           Currency := extractAccount statement.a11 } }
            req.Product (countMonth fromTo.1 fromTo.2) exchangeRate
            (statement.rows.foldl (processRow wordlists) {}) with
        | none => none
        | some c3 => some (.ok c3)

/-- Model of Service.CalculateIncome: request validation, the duplicate
business-number conflict, statement-file resolution, the compute
pipeline whose failures surface as the single InvalidStatement error,
and the upsert of the finished calculation.  Nothing is persisted on any
failure. -/
def calculateIncomeSvc (store : Store) (files : String → Option StatementFileModel)
    (currencies : String → Option ℚ) (wordlists : List Wordlist)
    (username : String) (now : ℕ) (req : CalculateReq) :
    Option (Except SvcError Calculation × Store) :=
  if req.Number = "" ∨ req.Product = .unspecified ∨ req.StatementFileName = "" then
    some (.error .invalidArgument, store)
  else if (store req.Number).isSome then
    some (.error .alreadyExists, store)
  else
    match files req.StatementFileName with
    | none => some (.error .invalidArgument, store)
    | some statement =>
      match calculateIncomeFromStatementFile username req wordlists statement
          currencies now with
      | none => none
      | some (.error _) => some (.error .invalidStatement, store)
      | some (.ok cal) => some (.ok cal, updateStore store cal.Number cal)

/-! ## General lemmas about the helper folds -/

theorem foldl_add_map {α : Type} (g : α → ℚ) :
    ∀ (l : List α) (a : ℚ), l.foldl (fun s x => qadd s (g x)) a = a + (l.map g).sum := by
  intro l
  induction l with
  | nil => intro a; simp
  | cons x t ih =>
    intro a
    rw [List.foldl_cons, ih, qadd_eq, List.map_cons, List.sum_cons, add_assoc]

theorem sumTransactions_eq (ts : List Transaction) :
    sumTransactions ts = (ts.map (fun t => t.Amount)).sum := by
  cases ts with
  | nil => simp [sumTransactions]
  | cons t rest => simp [sumTransactions, foldl_add_map (fun t : Transaction => t.Amount)]

theorem sumAmounts_eq (l : List ℚ) : sumAmounts l = l.sum := by
  cases l with
  | nil => simp [sumAmounts]
  | cons a rest =>
    have h := foldl_add_map (fun x : ℚ => x) (a :: rest) 0
    simpa [sumAmounts] using h

theorem foldlMinKey_le_init {α : Type} (f : α → ℚ) :
    ∀ (l : List α) (init : ℚ),
      l.foldl (fun acc x => if f x < acc then f x else acc) init ≤ init := by
  intro l
  induction l with
  | nil => intro init; simp
  | cons a t ih =>
    intro init
    simp only [List.foldl_cons]
    refine le_trans (ih _) ?_
    split <;> [exact le_of_lt (by assumption); exact le_refl _]

theorem foldlMinKey_le_mem {α : Type} (f : α → ℚ) :
    ∀ (l : List α) (init : ℚ) (x : α), x ∈ l →
      l.foldl (fun acc x => if f x < acc then f x else acc) init ≤ f x := by
  intro l
  induction l with
  | nil => intro init x hx; cases hx
  | cons a t ih =>
    intro init x hx
    simp only [List.foldl_cons]
    rcases List.mem_cons.mp hx with h | h
    · subst h
      refine le_trans (foldlMinKey_le_init f t _) ?_
      split <;> [exact le_refl _; exact le_of_not_lt (by assumption)]
    · exact ih _ x h

theorem foldlMinKey_mem {α : Type} (f : α → ℚ) :
    ∀ (l : List α) (init : ℚ),
      l.foldl (fun acc x => if f x < acc then f x else acc) init = init ∨
      l.foldl (fun acc x => if f x < acc then f x else acc) init ∈ l.map f := by
  intro l
  induction l with
  | nil => intro init; left; rfl
  | cons a t ih =>
    intro init
    simp only [List.foldl_cons, List.map_cons]
    rcases ih (if f a < init then f a else init) with h | h
    · rw [h]
      split
      · right; exact List.mem_cons_self _ _
      · left; rfl
    · right; exact List.mem_cons_of_mem _ h

theorem findMinAmountFromMonthlySalaries_mem (ms : List MonthlySalary)
    (h : ms ≠ []) :
    findMinAmountFromMonthlySalaries ms ∈ ms.map (fun x => x.Total) := by
  cases ms with
  | nil => exact absurd rfl h
  | cons m t =>
    show List.foldl (fun acc x => if x.Total < acc then x.Total else acc) m.Total (m :: t) ∈ _
    rcases foldlMinKey_mem (fun x : MonthlySalary => x.Total) (m :: t) m.Total with h1 | h1
    · rw [h1]; simp
    · exact h1

theorem findMinAmountFromMonthlySalaries_le (ms : List MonthlySalary) :
    ∀ x ∈ ms, findMinAmountFromMonthlySalaries ms ≤ x.Total := by
  intro x hx
  cases ms with
  | nil => cases hx
  | cons m t =>
    exact foldlMinKey_le_mem (fun x : MonthlySalary => x.Total) (m :: t) m.Total x hx

theorem sortByMonthKey_perm {α : Type} (key : α → String) (l : List α) :
    (sortByMonthKey key l).Perm l :=
  List.perm_insertionSort _ l

/-! ## Claim C1: basic salary for PL and SF -/

/-- Per-month salary bucket totals, written from the claim: the sum of
the transaction amounts of each nonempty month bucket. -/
def salaryMonthTotals (raw : StatCal) : List ℚ :=
  (raw.Transactions.filter (fun q => !q.2.isEmpty)).map
    (fun q => (q.2.map (fun t => t.Amount)).sum)

/-- C1: for the products PL and SF, on a stat map with at least one
salary month bucket and a positive period, the monthly basic salary is
the minimum of the per-month salary bucket totals — a member of that list
bounded by every member — and the total basic salary is the monthly basic
salary multiplied by the period. -/
theorem claim_C1 (s : StatMap) (raw : StatCal) (prod : Product) (p : ℚ)
    (hprod : prod = .PL ∨ prod = .SF)
    (hs : s.salary = some raw)
    (hne : salaryMonthTotals raw ≠ [])
    (hp : 0 < p) :
    basicSalary s prod p ∈ salaryMonthTotals raw ∧
    (∀ t ∈ salaryMonthTotals raw, basicSalary s prod p ≤ t) ∧
    totalBasicSalary s prod p = basicSalary s prod p * p := by
  have hbs : basicSalary s prod p =
      findMinAmountFromMonthlySalaries (toListMonthlySalaries s).MonthlySalaries := by
    rcases hprod with h | h <;> subst h <;> rfl
  have hms : (toListMonthlySalaries s).MonthlySalaries =
      sortByMonthKey (fun m => m.Month)
        ((raw.Transactions.filter (fun q => !q.2.isEmpty)).map
          (fun q => ({ Month := q.1, TimesReceived := (q.2.length : ℚ),
                       Total := sumTransactions q.2, Transactions := q.2 } : MonthlySalary))) := by
    simp [toListMonthlySalaries, hs]
  have hperm : ((toListMonthlySalaries s).MonthlySalaries.map (fun m => m.Total)).Perm
      (((raw.Transactions.filter (fun q => !q.2.isEmpty)).map
          (fun q => ({ Month := q.1, TimesReceived := (q.2.length : ℚ),
                       Total := sumTransactions q.2, Transactions := q.2 } : MonthlySalary))).map
        (fun m => m.Total)) := by
    rw [hms]; exact (sortByMonthKey_perm _ _).map _
  have htotals : ((raw.Transactions.filter (fun q => !q.2.isEmpty)).map
      (fun q => ({ Month := q.1, TimesReceived := (q.2.length : ℚ),
                   Total := sumTransactions q.2, Transactions := q.2 } : MonthlySalary))).map
        (fun m => m.Total) = salaryMonthTotals raw := by
    unfold salaryMonthTotals
    rw [List.map_map]
    refine List.map_congr_left ?_
    intro q _
    exact sumTransactions_eq q.2
  have hperm2 : ((toListMonthlySalaries s).MonthlySalaries.map (fun m => m.Total)).Perm
      (salaryMonthTotals raw) := htotals ▸ hperm
  have hmsne : (toListMonthlySalaries s).MonthlySalaries ≠ [] := by
    intro h0
    apply hne
    have h1 := hperm2
    rw [h0] at h1
    simpa using (List.Perm.eq_nil h1.symm)
  refine ⟨?_, ?_, ?_⟩
  · rw [hbs]
    exact hperm2.mem_iff.mp
      (findMinAmountFromMonthlySalaries_mem _ hmsne)
  · intro t ht
    rw [hbs]
    have ht2 : t ∈ (toListMonthlySalaries s).MonthlySalaries.map (fun m => m.Total) :=
      hperm2.mem_iff.mpr ht
    rcases List.mem_map.mp ht2 with ⟨x, hx, hxt⟩
    subst hxt
    exact findMinAmountFromMonthlySalaries_le _ x hx
  · rcases hprod with h | h <;> subst h <;>
      simp [totalBasicSalary, basicSalary, ne_of_gt hp, qmul_eq]

/-- Concrete salary bucket of the spec scenario: monthly totals of one
million, 1.2 million and 1.1 million. -/
def c1Tx (a : ℚ) (d : GoDate) : Transaction :=
  { Date := d, BillNumber := "B", Noted := "SALARY", Amount := a }

def c1Raw : StatCal :=
  { Transactions := [("January-2024", [c1Tx 1000000 ⟨2024, 1, 25⟩]),
                     ("February-2024", [c1Tx 1200000 ⟨2024, 2, 25⟩]),
                     ("March-2024", [c1Tx 1100000 ⟨2024, 3, 25⟩])],
    Monthly := [1000000, 1200000, 1100000],
    Total := 3300000 }

def c1Map : StatMap := { salary := some c1Raw }

theorem claim_C1_witness :
    basicSalary c1Map .PL 3 ∈ salaryMonthTotals c1Raw ∧
    (∀ t ∈ salaryMonthTotals c1Raw, basicSalary c1Map .PL 3 ≤ t) ∧
    totalBasicSalary c1Map .PL 3 = basicSalary c1Map .PL 3 * 3 :=
  claim_C1 c1Map c1Raw .PL 3 (Or.inl rfl) rfl (by decide) (by norm_num)

/-- Numeric check of the spec scenario: basic salary one million, total
basic salary three million over a three-month period. -/
theorem c1_scenario :
    basicSalary c1Map .PL 3 = 1000000 ∧ totalBasicSalary c1Map .PL 3 = 3000000 := by
  decide

/-! ## Claim C2: total income per product -/

/-- Minimum single transaction amount of a bucket, written from the
claim as a plain right fold of the binary minimum over the amounts. -/
def specMinTxAmount (ts : List Transaction) : ℚ :=
  match ts.map (fun t => t.Amount) with
  | [] => 0
  | a :: rest => rest.foldr min a

/-- Every salary transaction amount of a stat cal, across all month
buckets, unfiltered. -/
def allSalaryAmounts (raw : StatCal) : List ℚ :=
  (raw.Transactions.map (fun p => p.2.map (fun t => t.Amount))).flatten

theorem ifMin (a b : ℚ) : (if b < a then b else a) = min a b := by
  rcases le_or_lt a b with h | h
  · simp [min_def, h, not_lt.mpr h]
  · simp [min_def, h, not_le.mpr h]

theorem foldr_min_swap : ∀ (t : List ℚ) (a x : ℚ),
    t.foldr min (min a x) = min x (t.foldr min a) := by
  intro t
  induction t with
  | nil => intro a x; simp [min_comm]
  | cons y t ih =>
    intro a x
    simp only [List.foldr_cons, ih]
    rw [min_left_comm]

theorem foldl_min_eq_foldr : ∀ (l : List ℚ) (a : ℚ),
    l.foldl min a = l.foldr min a := by
  intro l
  induction l with
  | nil => intro a; rfl
  | cons x t ih =>
    intro a
    simp only [List.foldl_cons, List.foldr_cons, ih]
    exact foldr_min_swap t a x

theorem findMinFromTransactions_eq_spec (ts : List Transaction) :
    findMinFromTransactions ts = specMinTxAmount ts := by
  cases ts with
  | nil => rfl
  | cons t rest =>
    show List.foldl (fun acc x => if x.Amount < acc then x.Amount else acc)
      t.Amount (t :: rest) = _
    have h1 : (fun (acc : ℚ) (x : Transaction) => if x.Amount < acc then x.Amount else acc)
        = fun acc x => min acc x.Amount := by
      funext acc x
      exact ifMin acc x.Amount
    rw [h1]
    have h2 : List.foldl (fun (acc : ℚ) (x : Transaction) => min acc x.Amount)
        t.Amount (t :: rest) =
        List.foldl min t.Amount ((t :: rest).map (fun x => x.Amount)) := by
      rw [List.foldl_map]
    rw [h2]
    simp only [List.map_cons, List.foldl_cons, min_self]
    rw [foldl_min_eq_foldr]
    rfl

/-- Coherence of the running total of a salary stat cal with its
transaction buckets. -/
def salaryTotalOk (raw : StatCal) : Prop :=
  raw.Total = (allSalaryAmounts raw).sum

/-- Coherence for an optional bucket. -/
def salaryOkOpt (o : Option StatCal) : Prop :=
  ∀ raw, o = some raw → salaryTotalOk raw

theorem appendTxAssoc_amounts_sum (k : String) (t : Transaction) :
    ∀ (l : List (String × List Transaction)),
      (((appendTxAssoc l k t).map (fun p => p.2.map (fun x => x.Amount))).flatten).sum =
      ((l.map (fun p => p.2.map (fun x => x.Amount))).flatten).sum + t.Amount := by
  intro l
  induction l with
  | nil => simp [appendTxAssoc]
  | cons p rest ih =>
    rcases p with ⟨k1, ts⟩
    by_cases hk : k1 == k
    · simp [appendTxAssoc, hk, List.sum_append, add_assoc, add_comm, add_left_comm]
    · simp only [appendTxAssoc, hk, Bool.false_eq_true, if_false, List.map_cons,
        List.flatten_cons, List.sum_append, ih]
      ring

theorem appendTxsAssoc_amounts_sum (k : String) (ts2 : List Transaction) :
    ∀ (l : List (String × List Transaction)),
      (((appendTxsAssoc l k ts2).map (fun p => p.2.map (fun x => x.Amount))).flatten).sum =
      ((l.map (fun p => p.2.map (fun x => x.Amount))).flatten).sum +
        (ts2.map (fun x => x.Amount)).sum := by
  intro l
  induction l with
  | nil => simp [appendTxsAssoc]
  | cons p rest ih =>
    rcases p with ⟨k1, ts⟩
    by_cases hk : k1 == k
    · simp [appendTxsAssoc, hk, List.sum_append, add_assoc, add_comm, add_left_comm]
    · simp only [appendTxsAssoc, hk, Bool.false_eq_true, if_false, List.map_cons,
        List.flatten_cons, List.sum_append, ih]
      ring

theorem addSalaryTx_ok (m : StatMap) (month : String) (t : Transaction)
    (h : salaryOkOpt m.salary) :
    salaryOkOpt (addSalaryTx m month t.Amount t).salary := by
  intro raw hr
  have hold : (m.salary.getD {}).Total =
      (allSalaryAmounts (m.salary.getD {})).sum := by
    cases hm : m.salary with
    | none => simp [hm, allSalaryAmounts]
    | some r => simpa [hm] using h r hm
  simp only [addSalaryTx, Option.some.injEq] at hr
  subst hr
  unfold salaryTotalOk allSalaryAmounts
  simp only [qadd_eq]
  rw [appendTxAssoc_amounts_sum]
  unfold allSalaryAmounts at hold
  rw [hold]

theorem processRow_salary_ok (wl : List Wordlist) (m : StatMap) (row : List String)
    (h : salaryOkOpt m.salary) :
    salaryOkOpt (processRow wl m row).salary := by
  unfold processRow
  split
  · exact h
  split
  · exact h
  split
  · exact h
  split
  · exact h
  split
  · exact h
  split
  · exact h
  split
  · exact addSalaryTx_ok m _ _ h
  · exact h
  · exact h
  · exact h

theorem aggregate_salary_ok (wl : List Wordlist) :
    ∀ (rows : List (List String)) (m : StatMap), salaryOkOpt m.salary →
      salaryOkOpt ((rows.foldl (processRow wl) m).salary) := by
  intro rows
  induction rows with
  | nil => intro m h; exact h
  | cons row rest ih =>
    intro m h
    exact ih (processRow wl m row) (processRow_salary_ok wl m row h)

theorem toStateMapSalaries_sum :
    ∀ (ss : List MonthlySalary) (acc : List (String × List Transaction) × List ℚ),
      acc.2.sum = ((acc.1.map (fun p => p.2.map (fun x => x.Amount))).flatten).sum →
      (ss.foldl
        (fun acc s =>
          if s.Transactions.isEmpty then acc
          else (appendTxsAssoc acc.1 s.Month s.Transactions,
                acc.2 ++ s.Transactions.map (fun t => t.Amount))) acc).2.sum =
      (((ss.foldl
        (fun acc s =>
          if s.Transactions.isEmpty then acc
          else (appendTxsAssoc acc.1 s.Month s.Transactions,
                acc.2 ++ s.Transactions.map (fun t => t.Amount))) acc).1.map
          (fun p => p.2.map (fun x => x.Amount))).flatten).sum := by
  intro ss
  induction ss with
  | nil => intro acc h; exact h
  | cons s rest ih =>
    intro acc h
    simp only [List.foldl_cons]
    by_cases he : s.Transactions.isEmpty
    · simpa [he] using ih acc h
    · simp only [he, Bool.false_eq_true, if_false]
      refine ih _ ?_
      simp only [List.sum_append, appendTxsAssoc_amounts_sum, h]

/-- C2: the total income is, for SA, the sum over the salary month
buckets of the minimum single transaction amount of each bucket; for PL
and SF it is the unfiltered sum of all salary transaction amounts, both
for a stat map aggregated from statement rows and for one rebuilt from
caller-supplied breakdowns; and with no salary bucket the total income
of every product is zero. -/
theorem claim_C2 :
    (∀ (s : StatMap) (raw : StatCal), s.salary = some raw →
      totalIncome s .SA = (raw.Transactions.map (fun p => specMinTxAmount p.2)).sum) ∧
    (∀ (wordlists : List Wordlist) (rows : List (List String)) (raw : StatCal),
      (rows.foldl (processRow wordlists) {}).salary = some raw →
      totalIncome (rows.foldl (processRow wordlists) {}) .PL = (allSalaryAmounts raw).sum ∧
      totalIncome (rows.foldl (processRow wordlists) {}) .SF = (allSalaryAmounts raw).sum) ∧
    (∀ (c : Calculation) (raw : StatCal), (toStateMap c).salary = some raw →
      totalIncome (toStateMap c) .PL = (allSalaryAmounts raw).sum ∧
      totalIncome (toStateMap c) .SF = (allSalaryAmounts raw).sum) ∧
    (∀ (s : StatMap) (prod : Product), s.salary = none → totalIncome s prod = 0) := by
  have hPL : ∀ (s : StatMap) (raw : StatCal), s.salary = some raw →
      salaryTotalOk raw → totalIncome s .PL = (allSalaryAmounts raw).sum := by
    intro s raw hs hok
    simpa [totalIncome, hs] using hok
  have hSF : ∀ (s : StatMap) (raw : StatCal), s.salary = some raw →
      salaryTotalOk raw → totalIncome s .SF = (allSalaryAmounts raw).sum := by
    intro s raw hs hok
    simpa [totalIncome, hs] using hok
  refine ⟨?_, ?_, ?_, ?_⟩
  · intro s raw hs
    simp only [totalIncome, hs]
    rw [foldl_add_map (fun p : String × List Transaction => findMinFromTransactions p.2)
      raw.Transactions 0]
    rw [zero_add]
    congr 1
    refine List.map_congr_left ?_
    intro p _
    exact findMinFromTransactions_eq_spec p.2
  · intro wordlists rows raw hs
    have hok : salaryOkOpt ((rows.foldl (processRow wordlists) {}).salary) := by
      refine aggregate_salary_ok wordlists rows {} ?_
      intro r hr
      cases hr
    exact ⟨hPL _ raw hs (hok raw hs), hSF _ raw hs (hok raw hs)⟩
  · intro c raw hs
    have hsal : (toStateMap c).salary =
        some { Transactions := (toStateMapSalaries c.SalaryBreakdown.MonthlySalaries).1,
               Monthly := (toStateMapSalaries c.SalaryBreakdown.MonthlySalaries).2,
               Total := sumAmounts (toStateMapSalaries c.SalaryBreakdown.MonthlySalaries).2,
               AverageMonth := [] } := rfl
    rw [hsal] at hs
    have hraw := (Option.some.injEq _ _).mp hs
    have hok : salaryTotalOk raw := by
      rw [← hraw]
      unfold salaryTotalOk allSalaryAmounts
      simp only [sumAmounts_eq]
      exact toStateMapSalaries_sum c.SalaryBreakdown.MonthlySalaries ([], []) (by simp)
    refine ⟨hPL _ raw ?_ hok, hSF _ raw ?_ hok⟩
    · rw [hsal, hs]
    · rw [hsal, hs]
  · intro s prod hs
    cases prod <;> simp [totalIncome, hs]

/-- Concrete inputs for the C2 witness: an SA bucket with two
transactions in one month, a one-row statement aggregation and a rebuilt
breakdown. -/
def c2Tx (a : ℚ) : Transaction :=
  { Date := ⟨2024, 1, 15⟩, BillNumber := "B1", Noted := "salary pay", Amount := a }

def c2Raw : StatCal :=
  { Transactions := [("January-2024", [c2Tx 700000, c2Tx 500000])],
    Monthly := [700000, 500000],
    Total := 1200000 }

def c2Map : StatMap := { salary := some c2Raw }

def c2Row : List String := ["15/01/2024", "B1", "salary pay", "x", "1,000,000"]

def c2Wl : List Wordlist := [{ Word := "salary", Category := .salary }]

def c2AggRaw : StatCal :=
  { Transactions := [("January-2024", [c2Tx 1000000])],
    Monthly := [1000000],
    Total := 1000000 }

def c2Calc : Calculation :=
  { SalaryBreakdown := { MonthlySalaries :=
      [{ Month := "January-2024", TimesReceived := 1,
         Transactions := [c2Tx 1000000], Total := 1000000 }] } }

def c2StateRaw : StatCal :=
  { Transactions := [("January-2024", [c2Tx 1000000])],
    Monthly := [1000000],
    Total := 1000000 }

theorem claim_C2_witness :
    (totalIncome c2Map .SA = (c2Raw.Transactions.map (fun p => specMinTxAmount p.2)).sum) ∧
    (totalIncome ([c2Row].foldl (processRow c2Wl) {}) .PL = (allSalaryAmounts c2AggRaw).sum) ∧
    (totalIncome (toStateMap c2Calc) .PL = (allSalaryAmounts c2StateRaw).sum) ∧
    (totalIncome ({} : StatMap) .PL = 0) :=
  ⟨claim_C2.1 c2Map c2Raw rfl,
   (claim_C2.2.1 c2Wl [c2Row] c2AggRaw (by decide)).1,
   (claim_C2.2.2.1 c2Calc c2StateRaw (by decide)).1,
   claim_C2.2.2.2 {} .PL rfl⟩

/-! ## Claim C3: first match wins, unmatched memos excluded -/

theorem matchGo_first (t : String) :
    ∀ (pre : List Wordlist) (post : List Wordlist) (w : Wordlist),
      (∀ w1 ∈ pre, entryMatches t w1 = false) →
      entryMatches t w = true →
      matchGo t (pre ++ w :: post) = some (w.Category, goTrim w.Word) := by
  intro pre
  induction pre with
  | nil =>
    intro post w _ hw
    simp [matchGo, hw]
  | cons p rest ih =>
    intro post w hpre hw
    have hp : entryMatches t p = false := hpre p (List.mem_cons_self p rest)
    simp only [List.cons_append, matchGo, hp, Bool.false_eq_true, if_false]
    exact ih post w (fun w1 h1 => hpre w1 (List.mem_cons_of_mem p h1)) hw

theorem processRow_unmatched (wl : List Wordlist) (m : StatMap) (row : List String)
    (h : matchWordlists (row.getD 2 "") wl = none) :
    processRow wl m row = m := by
  unfold processRow
  split
  · rfl
  split
  · rfl
  split
  · rfl
  split
  · rfl
  split
  · rfl
  split
  · rfl
  · rename_i cat heq
    rw [h] at heq
    exact Option.noConfusion heq

/-- C3: the classifier tries the wordlist entries in sequence order and
the first entry whose test succeeds decides the category; the given
two-entry example yields ALLOWANCE; and a memo matched by no entry
contributes nothing to the aggregation pass. -/
theorem claim_C3 :
    (∀ (target : String) (pre post : List Wordlist) (w : Wordlist),
      (∀ w1 ∈ pre, entryMatches (goLower (goTrim target)) w1 = false) →
      entryMatches (goLower (goTrim target)) w = true →
      matchWordlists target (pre ++ w :: post) = some (w.Category, goTrim w.Word)) ∧
    matchWordlists "pay received"
      [{ Word := "pay", Category := .allowance },
       { Word := "pay", Category := .salary }] = some (.allowance, "pay") ∧
    (∀ (wordlists : List Wordlist) (m : StatMap) (row : List String),
      matchWordlists (row.getD 2 "") wordlists = none →
      processRow wordlists m row = m) := by
  refine ⟨?_, by decide, processRow_unmatched⟩
  intro target pre post w hpre hw
  exact matchGo_first _ pre post w hpre hw

theorem claim_C3_witness :
    (matchWordlists "pay received"
      [{ Word := "salary", Category := .salary },
       { Word := "pay", Category := .allowance },
       { Word := "pay", Category := .salary }] =
      some (.allowance, goTrim "pay")) ∧
    processRow [{ Word := "pay", Category := .allowance }] {}
      ["01/01/2024", "B", "zzz", "x", "100"] = {} :=
  ⟨claim_C3.1 "pay received"
    [{ Word := "salary", Category := .salary }]
    [{ Word := "pay", Category := .salary }]
    { Word := "pay", Category := .allowance }
    (by decide) (by decide),
   claim_C3.2.2 [{ Word := "pay", Category := .allowance }] {}
    ["01/01/2024", "B", "zzz", "x", "100"] (by decide)⟩

/-! ## Claim C4: short words match whole tokens, long words match
substrings.  The claim as frozen is refuted in two ways: the source
measures the word in bytes, not characters, and it trims each
pipe-segment and each space-token before comparing, which the claim's
token rule omits. -/

/-- Short-word matching rule exactly as the claim words it: split the
normalized memo on the pipe separator into segments, split each segment
on spaces into tokens, and require some token to equal the word
case-insensitively — with no per-segment or per-token trimming. -/
def claimShortTokenMatch (memo word : String) : Prop :=
  ∃ seg ∈ goSplit (goLower (goTrim memo)) "|",
    ∃ tok ∈ goSplit seg " ", eqFold tok word = true

instance (memo word : String) : Decidable (claimShortTokenMatch memo word) := by
  unfold claimShortTokenMatch
  infer_instance

/-- C4 counterexample: the claim's token rule, read literally, is false
against the source on both counts.  A memo with a tab inside a
pipe-segment is matched by the source (which trims the segment and the
token) though no untrimmed token equals the word; and a two-character
word of six UTF-8 bytes is matched as a substring by the source though
the claim prescribes token matching for words of at most three
characters. -/
theorem claim_C4_counterexample :
    (matchWordlists "ot\t|b" [{ Word := "ot", Category := .commission }] =
      some (.commission, "ot") ∧
     ¬ claimShortTokenMatch "ot\t|b" "ot" ∧
     (goTrim "ot").length ≤ 3) ∧
    (matchWordlists "xຫາy" [{ Word := "ຫາ", Category := .commission }] =
      some (.commission, "ຫາ") ∧
     ("ຫາ" : String).length ≤ 3 ∧
     ¬ claimShortTokenMatch "xຫາy" "ຫາ") := by
  refine ⟨⟨by decide, by decide, by decide⟩, ⟨by decide, by decide, by decide⟩⟩

/-- C4 as amended: the byte length of the trimmed word selects the rule,
and the token rule trims each pipe-segment and each space-token before
the case-insensitive comparison with the lowercased word; the two
boundary examples of the spec hold as stated. -/
theorem entryMatches_short (t : String) (w : Wordlist)
    (hlen : (goTrim w.Word).utf8ByteSize ≤ 3) :
    entryMatches t w =
      (goSplit t "|").any (fun seg =>
        (goSplit (goTrim seg) " ").any (fun v =>
          eqFold (goTrim v) (goLower (goTrim w.Word)))) := by
  unfold entryMatches
  simp [hlen]

theorem entryMatches_long (t : String) (w : Wordlist)
    (hlen : ¬ (goTrim w.Word).utf8ByteSize ≤ 3) :
    entryMatches t w = strContains t (goLower (goTrim w.Word)) := by
  unfold entryMatches
  simp [hlen]

theorem matchWordlists_single (memo : String) (w : Wordlist) :
    matchWordlists memo [w] =
      if entryMatches (goLower (goTrim memo)) w then
        some (w.Category, goTrim w.Word)
      else none := rfl

/-- C4 as amended: the byte length of the trimmed word selects the rule,
and the token rule trims each pipe-segment and each space-token before
the case-insensitive comparison with the lowercased word; the two
boundary examples of the spec hold as stated. -/
theorem claim_C4 (memo : String) (w : Wordlist) :
    ((goTrim w.Word).utf8ByteSize ≤ 3 →
      (matchWordlists memo [w] = some (w.Category, goTrim w.Word) ↔
        ∃ seg ∈ goSplit (goLower (goTrim memo)) "|",
          ∃ tok ∈ goSplit (goTrim seg) " ",
            eqFold (goTrim tok) (goLower (goTrim w.Word)) = true)) ∧
    (3 < (goTrim w.Word).utf8ByteSize →
      (matchWordlists memo [w] = some (w.Category, goTrim w.Word) ↔
        (goLower (goTrim w.Word)).toList <:+: (goLower (goTrim memo)).toList)) ∧
    matchWordlists "hot soup" [{ Word := "ot", Category := .commission }] = none ∧
    matchWordlists "OT | bonus" [{ Word := "ot", Category := .commission }] =
      some (.commission, "ot") := by
  refine ⟨?_, ?_, by decide, by decide⟩
  · intro hlen
    constructor
    · intro h
      by_cases hany : (goSplit (goLower (goTrim memo)) "|").any
          (fun seg => (goSplit (goTrim seg) " ").any
            (fun v => eqFold (goTrim v) (goLower (goTrim w.Word)))) = true
      · simp only [List.any_eq_true] at hany
        rcases hany with ⟨seg, hseg, tok, htok, htokeq⟩
        exact ⟨seg, hseg, tok, htok, htokeq⟩
      · rw [matchWordlists_single, entryMatches_short _ _ hlen, if_neg hany] at h
        exact Option.noConfusion h
    · intro h
      rcases h with ⟨seg, hseg, tok, htok, htokeq⟩
      rw [matchWordlists_single, entryMatches_short _ _ hlen]
      have hany : (goSplit (goLower (goTrim memo)) "|").any
          (fun seg => (goSplit (goTrim seg) " ").any
            (fun v => eqFold (goTrim v) (goLower (goTrim w.Word)))) = true := by
        simp only [List.any_eq_true]
        exact ⟨seg, hseg, tok, htok, htokeq⟩
      simp [hany]
  · intro hlen
    constructor
    · intro h
      by_cases hc : strContains (goLower (goTrim memo)) (goLower (goTrim w.Word)) = true
      · exact of_decide_eq_true hc
      · rw [matchWordlists_single, entryMatches_long _ _ (not_le.mpr hlen)] at h
        simp [hc] at h
    · intro h
      rw [matchWordlists_single, entryMatches_long _ _ (not_le.mpr hlen)]
      have hc : strContains (goLower (goTrim memo)) (goLower (goTrim w.Word)) = true :=
        decide_eq_true h
      simp [hc]

/-! ## Claim C5: the declared interview salary is dropped on the floor.
The formula engine carries the override — averageMonthlyIncome prefers a
positive interview value below the basic salary — but the interview
bucket of the state map is never written: Calculation.toStateMap builds
only the salary, allowance and commission buckets and
RecalculateReq.BasicSalaryFromInterview is never read, so the override
branch is unreachable and the monthly average income is always built
from the computed basic salary. -/

theorem toStateMap_interview (c : Calculation) : (toStateMap c).interview = none := rfl

def c5Tx (a : ℚ) : Transaction :=
  { Date := ⟨2024, 1, 25⟩, BillNumber := "B", Noted := "salary", Amount := a }

def c5Calc : Calculation :=
  { Number := "N5", Product := .PL, ExchangeRate := 1, PeriodInMonth := 3,
    Status := .pending }

/-- Recalculation request declaring a 900,000 interview salary against
monthly salary totals of 1,000,000, 1,200,000 and 1,100,000. -/
def c5Req : RecalculateReq :=
  { Number := "N5",
    BasicSalaryFromInterview := 900000,
    MonthlySalaries :=
      [{ Month := "January-2024", TimesReceived := 1,
         Transactions := [c5Tx 1000000], Total := 1000000 },
       { Month := "February-2024", TimesReceived := 1,
         Transactions := [c5Tx 1200000], Total := 1200000 },
       { Month := "March-2024", TimesReceived := 1,
         Transactions := [c5Tx 1100000], Total := 1100000 }] }

/-- C5, evaluated at the failing input: the declared interview salary
900,000 satisfies 0 < 900,000 < 1,000,000 = computed basic salary, so
the claim demands a monthly average income of 900,000 + 80,000 haircut =
980,000; the code produces 1,000,000 + 80,000 = 1,080,000, built from
the basic salary, because the interview value never reaches the state
map. -/
theorem claim_C5 :
    (reCalculate c5Calc "underwriter" 1 c5Req).map
      (fun c => (c.Source.BasicSalary.MonthlyAverage, c.MonthlyAverageIncome)) =
      some (1000000, 1080000) ∧
    c5Req.BasicSalaryFromInterview = 900000 ∧
    ((0 : ℚ) < 900000 ∧ (900000 : ℚ) < 1000000) ∧
    (1080000 : ℚ) ≠ 980000 := by
  refine ⟨by decide, by decide, by decide, by decide⟩

/-! ## Claim C7: completion immutability and idempotence -/

/-- C7: completing a pending calculation and then recalculating it fails
with AlreadyCompleted and changes nothing in the store, while completing
it a second time returns the already completed calculation unchanged
without saving, so completing twice equals completing once. -/
theorem claim_C7 (store : Store) (number by1 by2 : String) (n1 n2 n3 : ℕ)
    (c : Calculation) (req : RecalculateReq)
    (hne : number ≠ "")
    (hc : store number = some c)
    (hnum : c.Number = number)
    (hreq : req.Number = number)
    (hpending : c.Status = .pending) :
    completeCalculationSvc store by1 n1 number =
      (.ok (complete c by1 n1), updateStore store number (complete c by1 n1)) ∧
    reCalculateIncomeSvc (updateStore store number (complete c by1 n1)) by2 n2 req =
      some (.error .alreadyCompleted, updateStore store number (complete c by1 n1)) ∧
    completeCalculationSvc (updateStore store number (complete c by1 n1)) by2 n3 number =
      (.ok (complete c by1 n1), updateStore store number (complete c by1 n1)) := by
  have hcomp : isCompleted c = false := by
    simp [isCompleted, hpending]
  have hl : getCalculation store number = some c := by
    simp [getCalculation, hne, hc]
  have hnum2 : (complete c by1 n1).Number = number := by
    simpa [complete] using hnum
  have hcomp2 : isCompleted (complete c by1 n1) = true := by
    simp [isCompleted, complete]
  have hl2 : getCalculation (updateStore store number (complete c by1 n1)) number =
      some (complete c by1 n1) := by
    simp [getCalculation, updateStore, hne]
  refine ⟨?_, ?_, ?_⟩
  · unfold completeCalculationSvc
    rw [hl]
    simp [hcomp, hnum2]
  · unfold reCalculateIncomeSvc
    rw [hreq, hl2]
    simp [hcomp2]
  · unfold completeCalculationSvc
    rw [hl2]
    simp [hcomp2]

def c7Calc : Calculation := { Number := "N7", Status := .pending }

def c7Store : Store := fun n => if n = "N7" then some c7Calc else none

def c7Req : RecalculateReq := { Number := "N7" }

theorem claim_C7_witness :
    completeCalculationSvc c7Store "u1" 1 "N7" =
      (.ok (complete c7Calc "u1" 1), updateStore c7Store "N7" (complete c7Calc "u1" 1)) ∧
    reCalculateIncomeSvc (updateStore c7Store "N7" (complete c7Calc "u1" 1)) "u2" 2 c7Req =
      some (.error .alreadyCompleted, updateStore c7Store "N7" (complete c7Calc "u1" 1)) ∧
    completeCalculationSvc (updateStore c7Store "N7" (complete c7Calc "u1" 1)) "u2" 3 "N7" =
      (.ok (complete c7Calc "u1" 1), updateStore c7Store "N7" (complete c7Calc "u1" 1)) :=
  claim_C7 c7Store "N7" "u1" "u2" 1 2 3 c7Calc c7Req
    (by decide) (by decide) rfl rfl rfl

/-! ## Claim C10: the allowance month divisor is divided by unguarded -/

/-- C10: a recalculation request carrying one allowance bucket with a
nonempty transaction list and a zero months divisor drives the public
recalculation endpoint into the unguarded division of the allowance
aggregation: the operation panics (none) instead of returning a
result. -/
theorem claim_C10 (store : Store) (by_ : String) (now : ℕ) (req : RecalculateReq)
    (c : Calculation) (a : Allowance)
    (hc : getCalculation store req.Number = some c)
    (hpend : isCompleted c = false)
    (hallow : req.Allowances = [a])
    (hmonths : a.Months = 0)
    (htxs : a.Transactions ≠ []) :
    reCalculateIncomeSvc store by_ now req = none := by
  have he : a.Transactions.isEmpty = false := by
    rcases h : a.Transactions with _ | ⟨t0, ts0⟩
    · exact absurd h htxs
    · rfl
  have hstate : (toStateMap { c with
      SalaryBreakdown := { MonthlySalaries := req.MonthlySalaries },
      AllowanceBreakdown := { Allowances := req.Allowances },
      CommissionBreakdown := { Commissions := req.Commissions } }).allowance =
      some { Transactions := [(a.Title, a.Transactions)],
             Monthly := [a.Total],
             Total := sumAmounts [a.Total],
             AverageMonth := [(a.Title, a.Months)] } := by
    simp [toStateMap, toStateMapAllowances, hallow, he, htxs, appendTxsAssoc, setAssoc]
  have hlist : toListAllowances (toStateMap { c with
      SalaryBreakdown := { MonthlySalaries := req.MonthlySalaries },
      AllowanceBreakdown := { Allowances := req.Allowances },
      CommissionBreakdown := { Commissions := req.Commissions } }) = none := by
    unfold toListAllowances
    rw [hstate]
    simp [toListAllowancesGo, he, lookupAssoc, hmonths]
  have hrec : reCalculate c by_ now req = none := by
    unfold reCalculate populate
    have hsrc : newSourceIncome (toStateMap { c with
        SalaryBreakdown := { MonthlySalaries := req.MonthlySalaries },
        AllowanceBreakdown := { Allowances := req.Allowances },
        CommissionBreakdown := { Commissions := req.Commissions } })
        c.Product c.PeriodInMonth = none := by
      unfold newSourceIncome
      rw [hlist]
      rfl
    simp [hsrc]
  unfold reCalculateIncomeSvc
  rw [hc]
  simp [hpend, hrec]

def c10Calc : Calculation :=
  { Number := "NX", Status := .pending, Product := .PL, PeriodInMonth := 3,
    ExchangeRate := 1 }

def c10Store : Store := fun n => if n = "NX" then some c10Calc else none

def c10Tx : Transaction :=
  { Date := ⟨2024, 1, 15⟩, BillNumber := "B", Noted := "fuel allowance",
    Amount := 120000 }

def c10A : Allowance :=
  { Title := "fuel", Months := 0, MonthlyAverage := 0,
    Transactions := [c10Tx], Total := 120000 }

def c10Req : RecalculateReq := { Number := "NX", Allowances := [c10A] }

theorem claim_C10_witness : reCalculateIncomeSvc c10Store "u" 5 c10Req = none :=
  claim_C10 c10Store "u" 5 c10Req c10Calc c10A
    (by decide) (by decide) rfl rfl (by decide)

theorem claim_C4_witness :
    matchWordlists "OT | bonus" [{ Word := "ot", Category := .commission }] =
      some (SourceKind.commission, goTrim "ot") ↔
    ∃ seg ∈ goSplit (goLower (goTrim "OT | bonus")) "|",
      ∃ tok ∈ goSplit (goTrim seg) " ",
        eqFold (goTrim tok) (goLower (goTrim "ot")) = true :=
  (claim_C4 "OT | bonus" { Word := "ot", Category := .commission }).1 (by decide)

/-! ## Claim C6: compute failures.  The source rejects a statement for
the header conditions only; a full pass that classifies zero
transactions is not an error — the calculation is created with empty
breakdowns and persisted.  The claim's third failure condition is
therefore refuted and the claim amended to the header conditions. -/

theorem totalIncome_empty (prod : Product) : totalIncome {} prod = 0 := by
  cases prod <;> rfl

theorem basicSalary_empty (prod : Product) (period : ℚ) :
    basicSalary {} prod period = 0 := by
  cases prod <;> first | rfl | simp [basicSalary, totalIncome]

theorem totalBasicSalary_empty (prod : Product) (period : ℚ) :
    totalBasicSalary {} prod period = 0 := by
  cases prod <;> simp [totalBasicSalary, totalIncome, basicSalary_empty, qmul_eq]

theorem totalOtherIncome_empty (period : ℚ) : totalOtherIncome {} period = 0 := by
  simp [totalOtherIncome, totalIncome, totalBasicSalary_empty, qsub_eq]

theorem averageOtherIncome_empty (period : ℚ) : averageOtherIncome {} period = 0 := by
  simp [averageOtherIncome, totalOtherIncome_empty]

theorem averageCommission_empty (period : ℚ) : averageCommission {} period = 0 := rfl

theorem averageMonthlyIncome_empty (prod : Product) (period : ℚ) :
    averageMonthlyIncome {} prod period = some 0 := by
  cases prod <;>
    simp [averageMonthlyIncome, averageAllowance, toListAllowances,
      averageOtherIncomeIn80Percent, averageOtherIncome_empty,
      averageCommission_empty, basicSalary_empty, basicSalaryFromInterview,
      qadd_eq, qmul_eq]

theorem netIncomeMonthly_empty (prod : Product) (rate period : ℚ) :
    netIncomeMonthly {} prod rate period = some 0 := by
  by_cases hp : period = 0
  · simp [netIncomeMonthly, hp]
  · simp [netIncomeMonthly, hp, averageMonthlyIncome_empty]

theorem populate_empty (c : Calculation) (prod : Product) (period rate : ℚ) :
    populate c prod period rate {} =
      some { c with
        Source := { BasicSalary := { MonthlyAverage := 0, Total := 0 },
                    Allowance := { MonthlyAverage := 0, Total := 0 },
                    Commission := { MonthlyAverage := 0, Total := 0 },
                    Other := { MonthlyAverage := 0, Total := 0 } },
        AllowanceBreakdown := {},
        CommissionBreakdown := {},
        SalaryBreakdown := {},
        PeriodInMonth := period,
        TotalBasicSalary := 0,
        TotalIncome := 0,
        TotalOtherIncome := 0,
        MonthlyAverageIncome := 0,
        MonthlyNetIncome := 0,
        ExchangeRate := rate } := by
  unfold populate
  have hsrc : newSourceIncome {} prod period =
      some { BasicSalary := { MonthlyAverage := 0, Total := 0 },
             Allowance := { MonthlyAverage := 0, Total := 0 },
             Commission := { MonthlyAverage := 0, Total := 0 },
             Other := { MonthlyAverage := 0, Total := 0 } } := by
    simp [newSourceIncome, toListAllowances, totalBasicSalary_empty,
      basicSalary_empty, averageCommission_empty, toListCommissions]
  rw [hsrc]
  simp [toListAllowances, averageMonthlyIncome_empty, netIncomeMonthly_empty,
    toListCommissions, toListMonthlySalaries, totalBasicSalary_empty,
    totalIncome_empty, totalOtherIncome_empty]

/-- C6 as amended: the compute endpoint fails with InvalidStatement and
persists nothing whenever the extracted account number or display name
is missing or the trimmed currency is not three bytes; a statement whose
full pass classifies zero transactions is NOT rejected — the calculation
is created with zero totals and persisted. -/
theorem claim_C6 :
    (∀ (store : Store) (files : String → Option StatementFileModel)
        (currencies : String → Option ℚ) (wordlists : List Wordlist)
        (username : String) (now : ℕ) (req : CalculateReq)
        (statement : StatementFileModel) (ft : GoDate × GoDate),
      ¬(req.Number = "" ∨ req.Product = .unspecified ∨ req.StatementFileName = "") →
      store req.Number = none →
      files req.StatementFileName = some statement →
      extractPeriod statement.a7 = some ft →
      (extractAccount statement.a9 = "" ∨ extractAccount statement.a10 = "" ∨
        (goTrim (extractAccount statement.a11)).utf8ByteSize ≠ 3) →
      calculateIncomeSvc store files currencies wordlists username now req =
        some (.error .invalidStatement, store)) ∧
    (∀ (store : Store) (files : String → Option StatementFileModel)
        (currencies : String → Option ℚ) (wordlists : List Wordlist)
        (username : String) (now : ℕ) (req : CalculateReq)
        (statement : StatementFileModel) (ft : GoDate × GoDate) (rate : ℚ),
      ¬(req.Number = "" ∨ req.Product = .unspecified ∨ req.StatementFileName = "") →
      store req.Number = none →
      files req.StatementFileName = some statement →
      extractPeriod statement.a7 = some ft →
      ¬((extractAccount statement.a9).utf8ByteSize = 0 ∨
        (extractAccount statement.a10).utf8ByteSize = 0 ∨
        (goTrim (extractAccount statement.a11)).utf8ByteSize ≠ 3) →
      currencies (extractAccount statement.a11) = some rate →
      statement.rows.foldl (processRow wordlists) {} = {} →
      ∃ cres, calculateIncomeSvc store files currencies wordlists username now req =
          some (.ok cres, updateStore store cres.Number cres) ∧
        cres.TotalIncome = 0 ∧ cres.TotalBasicSalary = 0 ∧
        cres.MonthlyNetIncome = 0 ∧ cres.Number = req.Number ∧
        cres.SalaryBreakdown.MonthlySalaries = []) := by
  constructor
  · intro store files currencies wordlists username now req statement ft
      hval hdup hfile hper hbad
    have hfs : calculateIncomeFromStatementFile username req wordlists statement
        currencies now = some (.error .invalidHeader) := by
      unfold calculateIncomeFromStatementFile
      simp only [hper]
      have hcond : (extractAccount statement.a9).utf8ByteSize = 0 ∨
          (extractAccount statement.a10).utf8ByteSize = 0 ∨
          (goTrim (extractAccount statement.a11)).utf8ByteSize ≠ 3 := by
        rcases hbad with h | h | h
        · left; rw [h]; rfl
        · right; left; rw [h]; rfl
        · right; right; exact h
      rw [if_pos hcond]
    unfold calculateIncomeSvc
    rw [if_neg hval]
    simp [hdup, hfile, hfs]
  · intro store files currencies wordlists username now req statement ft rate
      hval hdup hfile hper hcond hcur hrows
    have hfs : calculateIncomeFromStatementFile username req wordlists statement
        currencies now =
        some (.ok ({ (newCalculation username req.Number statement.Name req.Product now) with
          StartedAt := ft.1, EndedAt := ft.2,
          Account := { Number := extractAccount statement.a9,
                       DisplayName := extractAccount statement.a10,
                       Currency := extractAccount statement.a11 },
          Source := { BasicSalary := { MonthlyAverage := 0, Total := 0 },
                      Allowance := { MonthlyAverage := 0, Total := 0 },
                      Commission := { MonthlyAverage := 0, Total := 0 },
                      Other := { MonthlyAverage := 0, Total := 0 } },
          AllowanceBreakdown := {},
          CommissionBreakdown := {},
          SalaryBreakdown := {},
          PeriodInMonth := countMonth ft.1 ft.2,
          TotalBasicSalary := 0,
          TotalIncome := 0,
          TotalOtherIncome := 0,
          MonthlyAverageIncome := 0,
          MonthlyNetIncome := 0,
          ExchangeRate := rate })) := by
      unfold calculateIncomeFromStatementFile
      simp only [hper]
      rw [if_neg hcond]
      simp only [hcur]
      rw [hrows]
      rw [populate_empty]
    refine ⟨{ (newCalculation username req.Number statement.Name req.Product now) with
          StartedAt := ft.1, EndedAt := ft.2,
          Account := { Number := extractAccount statement.a9,
                       DisplayName := extractAccount statement.a10,
                       Currency := extractAccount statement.a11 },
          Source := { BasicSalary := { MonthlyAverage := 0, Total := 0 },
                      Allowance := { MonthlyAverage := 0, Total := 0 },
                      Commission := { MonthlyAverage := 0, Total := 0 },
                      Other := { MonthlyAverage := 0, Total := 0 } },
          AllowanceBreakdown := {},
          CommissionBreakdown := {},
          SalaryBreakdown := {},
          PeriodInMonth := countMonth ft.1 ft.2,
          TotalBasicSalary := 0,
          TotalIncome := 0,
          TotalOtherIncome := 0,
          MonthlyAverageIncome := 0,
          MonthlyNetIncome := 0,
          ExchangeRate := rate }, ?_, rfl, rfl, rfl, rfl, rfl⟩
    unfold calculateIncomeSvc
    rw [if_neg hval]
    simp [hdup, hfile, hfs]

def c6File : StatementFileModel :=
  { Name := "stmt.xlsx",
    a7 := "ໄລຍະເວລາ : 01/01/2024 ຫາ 31/03/2024",
    a9 := "ເລກບັນຊີ : 1234567890",
    a10 := "ຊື່ບັນຊີ : JOHN DOE",
    a11 := "ສະກຸນເງິນ : LAK",
    rows := [] }

/-- Statement file whose currency header holds a two-byte code. -/
def c6BadFile : StatementFileModel :=
  { c6File with a11 := "ສະກຸນເງິນ : LA" }

def c6Files : String → Option StatementFileModel :=
  fun n => if n = "stmt.xlsx" then some c6File else none

def c6BadFiles : String → Option StatementFileModel :=
  fun n => if n = "stmt.xlsx" then some c6BadFile else none

def c6Currencies : String → Option ℚ :=
  fun c => if c = "LAK" then some 1 else none

def c6Store : Store := fun _ => none

def c6Req : CalculateReq :=
  { Number := "N6", Product := .PL, StatementFileName := "stmt.xlsx" }

def c6Result : Option (Except SvcError Calculation × Store) :=
  calculateIncomeSvc c6Store c6Files c6Currencies [] "user" 0 c6Req

/-- First component of a successful service result. -/
def okCalc : Option (Except SvcError Calculation × Store) → Option Calculation
  | some (.ok c, _) => some c
  | _ => none

/-- Store lookup inside a service result. -/
def storedAt (number : String) :
    Option (Except SvcError Calculation × Store) → Option Calculation
  | some (_, st) => st number
  | none => none

/-- C6 counterexample to the claim as frozen: a statement with valid
headers and zero classifiable transactions is NOT rejected — the compute
endpoint returns a calculation with zero totals and persists it under
the requested number. -/
theorem claim_C6_counterexample :
    (okCalc c6Result).isSome = true ∧
    (okCalc c6Result).map (fun c => c.TotalIncome) = some 0 ∧
    (okCalc c6Result).map (fun c => c.SalaryBreakdown.MonthlySalaries.length) = some 0 ∧
    (storedAt "N6" c6Result).map (fun c => c.Number) = some "N6" := by
  refine ⟨by decide, by decide, by decide, by decide⟩

theorem claim_C6_witness :
    (calculateIncomeSvc c6Store c6BadFiles c6Currencies [] "user" 0 c6Req =
      some (.error .invalidStatement, c6Store)) ∧
    (∃ cres, calculateIncomeSvc c6Store c6Files c6Currencies [] "user" 0 c6Req =
        some (.ok cres, updateStore c6Store cres.Number cres) ∧
      cres.TotalIncome = 0 ∧ cres.TotalBasicSalary = 0 ∧
      cres.MonthlyNetIncome = 0 ∧ cres.Number = c6Req.Number ∧
      cres.SalaryBreakdown.MonthlySalaries = []) :=
  ⟨claim_C6.1 c6Store c6BadFiles c6Currencies [] "user" 0 c6Req c6BadFile
    (⟨2024, 1, 1⟩, ⟨2024, 3, 31⟩)
    (by decide) rfl (by decide) (by decide) (by decide),
   claim_C6.2 c6Store c6Files c6Currencies [] "user" 0 c6Req c6File
    (⟨2024, 1, 1⟩, ⟨2024, 3, 31⟩) 1
    (by decide) rfl (by decide) (by decide) (by decide) (by decide) rfl⟩

/-! ## Claim C8: the whole-month period count -/

/-- Whole-month count as the claim words it: the difference of the
calendar month indices of the two dates, the end month counted
inclusively. -/
def specMonthSpan (fromD toD : GoDate) : ℚ :=
  (((12 * toD.year + toD.month : ℤ) - (12 * fromD.year + fromD.month) : ℤ) : ℚ)

/-- C8: for statement dates with the start not after the end, the period
is the difference in calendar months (end month counted inclusively),
and when the end precedes the start the period is zero. -/
theorem claim_C8 (fromD toD : GoDate) :
    countMonth fromD toD =
      if beforeGoDate toD fromD then 0 else specMonthSpan fromD toD := by
  unfold countMonth specMonthSpan
  split
  · rfl
  · push_cast
    ring

/-! ## Claim C9: period-zero degeneracy of every period-divided figure -/

/-- C9: with a zero period the total basic salary, the average other
income, the average commission and the monthly net income are all zero,
and none of the division-by-zero branches is reached (every function
returns a value rather than the panic marker). -/
theorem claim_C9 (s : StatMap) (prod : Product) (rate : ℚ) :
    totalBasicSalary s prod 0 = 0 ∧
    averageOtherIncome s 0 = 0 ∧
    averageCommission s 0 = 0 ∧
    netIncomeMonthly s prod rate 0 = some 0 := by
  refine ⟨?_, ?_, ?_, ?_⟩
  · simp [totalBasicSalary]
  · simp [averageOtherIncome]
  · cases h : s.commission with
    | none => simp [averageCommission, toListCommissions, h]
    | some raw => simp [averageCommission, toListCommissions, h]
  · simp [netIncomeMonthly]

end Income
